import Mathlib

/-!
Shallow embedding of `@devinegearing/cli-progress` (src/index.mjs).

Numbers carried by the engine (ratios, percentages) are modelled as `ℚ`;
the estimated-mode easing curve, which uses `Math.exp`, is modelled over `ℝ`.
JavaScript `Math.round` rounds half toward +∞, which coincides with
Mathlib's `round` (`round x = ⌊x + 1/2⌋`), including on negatives.
Event-driven parts (timer callbacks, child-process events) are modelled as
pure state transformers that also report the terminal writes / callback
invocations they perform, as lists of actions in execution order.
-/

namespace CliProgress

/-- Modelled from the spec: the text-styling boundary (chalk) is an external
collaborator that wraps text in ANSI style codes. `chalk.cyan`. -/
def chalkCyan (s : String) : String := "\x1b[36m" ++ s ++ "\x1b[39m"

/-- Modelled from the spec: styling boundary, `chalk.dim`. -/
def chalkDim (s : String) : String := "\x1b[2m" ++ s ++ "\x1b[22m"

/-- Modelled from the spec: styling boundary, `chalk.green`. -/
def chalkGreen (s : String) : String := "\x1b[32m" ++ s ++ "\x1b[39m"

/-- Modelled from the spec: styling boundary, `chalk.red`. -/
def chalkRed (s : String) : String := "\x1b[31m" ++ s ++ "\x1b[39m"

/-- Modelled from the spec: styling boundary, `chalk.yellow`. -/
def chalkYellow (s : String) : String := "\x1b[33m" ++ s ++ "\x1b[39m"

/-- JavaScript `String.prototype.repeat`. -/
def repeatStr (s : String) : ℕ → String
  | 0 => ""
  | n + 1 => s ++ repeatStr s n

/-- Engine configuration (the destructured `options` of `createProgress`,
src/index.mjs lines 43-52). Immutable for the life of one engine instance. -/
structure Config where
  barWidth : ℕ
  indent : ℕ
  filledChar : String
  emptyChar : String
  spinnerFrames : List String
  renderInterval : ℕ
  estimateBuffer : ℚ
deriving Repr

/-- The option defaults of `createProgress` (src/index.mjs lines 44-52). -/
def defaultConfig : Config :=
  { barWidth := 24
    indent := 4
    filledChar := "━"
    emptyChar := "─"
    spinnerFrames := ["⠋", "⠙", "⠹", "⠸", "⠼", "⠴", "⠦", "⠧", "⠇", "⠏"]
    renderInterval := 80
    estimateBuffer := 15 / 100 }

/-- `pad` (src/index.mjs line 55): indent-many spaces. -/
def pad (cfg : Config) : String := repeatStr " " cfg.indent

/-- `Math.max(0, Math.min(1, pct))` inside `renderBar` (line 60). -/
def clampRatio (pct : ℚ) : ℚ := max 0 (min 1 pct)

/-- `Math.round(barWidth * clamped)` inside `renderBar` (line 61). -/
def filledCount (barWidth : ℕ) (pct : ℚ) : ℤ :=
  round ((barWidth : ℚ) * clampRatio pct)

/-- `barWidth - filled`, the number of empty glyphs (line 64). -/
def emptyCount (barWidth : ℕ) (pct : ℚ) : ℤ :=
  (barWidth : ℤ) - filledCount barWidth pct

/-- `renderBar` (src/index.mjs lines 59-66): styled filled and empty runs. -/
def renderBar (cfg : Config) (pct : ℚ) : String :=
  chalkCyan (repeatStr cfg.filledChar (filledCount cfg.barWidth pct).toNat) ++
  chalkDim (repeatStr cfg.emptyChar (emptyCount cfg.barWidth pct).toNat)

/-- `spinnerFrames[frameIdx % spinnerFrames.length]` (line 70); JavaScript
indexing yields `undefined` out of range, modelled as `Option`. -/
def spinnerGlyph (frames : List String) (i : ℕ) : Option String :=
  frames.get? (i % frames.length)

/-- The `${Math.round(pct * 100)}%` string of `paint` (line 69). -/
def pctString (pct : ℚ) : String := toString (round (pct * 100)) ++ "%"

/-- One painted frame: the spinner glyph chosen and the full line written. -/
structure Frame where
  glyph : Option String
  line : String
deriving Repr, DecidableEq

/-- `paint` (src/index.mjs lines 68-74): post-increments the engine-scoped
`frameIdx` and writes an erase-line + carriage-return framed line. Returns
the new `frameIdx` together with the frame written. -/
def paint (cfg : Config) (frameIdx : ℕ) (label : String) (pct : ℚ) :
    ℕ × Frame :=
  (frameIdx + 1,
   { glyph := spinnerGlyph cfg.spinnerFrames frameIdx
     line := "\r\x1b[2K" ++ pad cfg ++
       chalkCyan ((spinnerGlyph cfg.spinnerFrames frameIdx).getD "undefined") ++
       " " ++ label ++ "  " ++ renderBar cfg pct ++ "  " ++
       chalkDim (pctString pct) })

/-- A sequence of `paint` calls through one engine instance, each with its own
label and ratio (possibly from different bars/runs), threading `frameIdx`. -/
def paintCalls (cfg : Config) (frameIdx : ℕ) :
    List (String × ℚ) → ℕ × List Frame
  | [] => (frameIdx, [])
  | c :: rest =>
    let r := paint cfg frameIdx c.1 c.2
    let r2 := paintCalls cfg r.1 rest
    (r2.1, r.2 :: r2.2)

/-- `succeed` (lines 78-80): the string written to stdout. -/
def succeed (cfg : Config) (label : String) : String :=
  "\r\x1b[2K" ++ pad cfg ++ chalkGreen "✓" ++ " " ++ label ++ "\n"

/-- `fail` (lines 82-84): the string written to stdout. -/
def fail (cfg : Config) (label : String) : String :=
  "\r\x1b[2K" ++ pad cfg ++ chalkRed "✖" ++ " " ++ label ++ "\n"

/-- `info` (lines 86-88): the string written to stdout. -/
def info (cfg : Config) (label : String) : String :=
  pad cfg ++ chalkDim "○" ++ " " ++ label ++ "\n"

/-- `warn` (lines 90-92): the string written to stdout. -/
def warn (cfg : Config) (label : String) : String :=
  pad cfg ++ chalkYellow "⚠" ++ " " ++ label ++ "\n"

/-- Modelled from the spec: the platform timer boundary (`node:timers`).
Active recurring timers form a set of ids; `clearInterval` removes an id and
is a no-op when the id is not (or no longer) registered. -/
def clearInterval (id : ℕ) (timers : List ℕ) : List ℕ :=
  timers.filter (fun t => t != id)

/-- The `stop` closure of a handle returned by `start` (line 107):
`clearInterval(id)` on the handle's own timer id. -/
def stop (id : ℕ) (timers : List ℕ) : List ℕ := clearInterval id timers

/-- A `doneLabel` option: either a literal string or a zero-argument
function (src/index.mjs line 180 / 259). -/
inductive DoneLabel where
  | str (s : String)
  | fn (f : Unit → String)

/-- `typeof doneLabel === "function" ? doneLabel() : doneLabel`
(lines 179-180 and 258-259); an absent `doneLabel` stays absent. -/
def resolveDone : Option DoneLabel → Option String
  | some (.fn f) => some (f ())
  | some (.str s) => some s
  | none => none

/-- `finalLabel || label` in `snapTo100` (line 124): JavaScript falls back to
`label` when `finalLabel` is absent or the empty string (both falsy). -/
def finalOrLabel (finalLabel : Option String) (label : String) : String :=
  match finalLabel with
  | some s => if s = "" then label else s
  | none => label

/-- The ratio painted at snap frame `frame`:
`currentPct + (1 - currentPct) * (frame / totalFrames)` (line 121). -/
def snapStep (currentPct : ℚ) (frame : ℕ) : ℚ :=
  currentPct + (1 - currentPct) * ((frame : ℚ) / 8)

/-- One terminal-side action performed by a run's close handler, in
execution order. -/
inductive Act where
  | stopTimer
  | paintFrame (pct : ℚ)
  | printSuccess (label : String)
  | printFail (label : String)
  | printStderr (text : String)
deriving Repr, DecidableEq

/-- The interval body of `snapTo100` (lines 117-127): increment `frame`,
paint `snapStep`, and once `frame` reaches 8 print the success line with
`finalLabel || label`. -/
def snapRun (label : String) (currentPct : ℚ) (finalLabel : Option String)
    (frame : ℕ) : List Act :=
  if h : 8 ≤ frame + 1 then
    [Act.paintFrame (snapStep currentPct (frame + 1)),
     Act.printSuccess (finalOrLabel finalLabel label)]
  else
    Act.paintFrame (snapStep currentPct (frame + 1)) ::
      snapRun label currentPct finalLabel (frame + 1)
termination_by 8 - frame
decreasing_by simp_wf; omega

/-- `snapTo100` (src/index.mjs lines 115-129): the actions it performs,
starting from `frame = 0`. -/
def snapTo100 (label : String) (currentPct : ℚ)
    (finalLabel : Option String) : List Act :=
  snapRun label currentPct finalLabel 0

/-- `tolerateFailure && tolerateFailure()` (lines 177 and 256): false when
the predicate is absent, otherwise its value at exit time. -/
def tolerateOk : Option (Unit → Bool) → Bool
  | some f => f ()
  | none => false

/-- The `close` handler shared verbatim by `runEstimated` (lines 173-189)
and `runTracked` (lines 253-268): stop the render timer, decide success via
`code === 0 || (tolerateFailure && tolerateFailure())`; on success resolve
the done label and snap to 100%, resolving (`none`); on failure print the
failure line, then the trimmed stderr block when non-empty, and reject with
the exit code (`some code`, i.e. `CommandFailed(code)`). No retry: the
result is terminal. -/
def closeHandler (label : String) (doneLabel : Option DoneLabel)
    (tolerateFailure : Option (Unit → Bool)) (stderrAcc : String)
    (currentPct : ℚ) (code : ℤ) : List Act × Option ℤ :=
  if code = 0 ∨ tolerateOk tolerateFailure = true then
    (Act.stopTimer :: snapTo100 label currentPct (resolveDone doneLabel),
     none)
  else
    (Act.stopTimer :: Act.printFail label ::
       (if stderrAcc.trim = "" then [] else [Act.printStderr stderrAcc.trim]),
     some code)

/-- The mutable state of one tracked run: the handle's ratio (`pct` in
`start`'s closure), the step counter `completed`, and the accumulated
stderr text `allStderr` (src/index.mjs lines 221-234). -/
structure TrackedState where
  pct : ℚ
  completed : ℕ
  allStderr : String
deriving Repr, DecidableEq

/-- `bar.increment()` (lines 227-230): always increment `completed`; when
`total` is truthy (present and non-zero) set the ratio to
`completed / total`. -/
def increment (total : Option ℤ) (s : TrackedState) : TrackedState :=
  let completed := s.completed + 1
  match total with
  | some t =>
    if t ≠ 0 then
      { s with completed := completed, pct := (completed : ℚ) / (t : ℚ) }
    else
      { s with completed := completed }
  | none => { s with completed := completed }

/-- One call the `onOutput` observer may make on the `bar` view
(lines 224-231): `setPct(v)` or `increment()`. -/
inductive BarCmd where
  | setPct (v : ℚ)
  | increment
deriving Repr, DecidableEq

/-- Effect of one `bar` call on the tracked state. -/
def applyCmd (total : Option ℤ) (s : TrackedState) : BarCmd → TrackedState
  | .setPct v => { s with pct := v }
  | .increment => increment total s

/-- Effect of the sequence of `bar` calls an observer makes on one chunk. -/
def applyCmds (total : Option ℤ) (cmds : List BarCmd) (s : TrackedState) :
    TrackedState :=
  cmds.foldl (applyCmd total) s

/-- A callback invocation performed while handling one chunk. -/
inductive CallEv where
  | parserCall (text : String)
  | observerCall (text : String)
deriving Repr, DecidableEq

/-- `processData(text, isStderr)` (src/index.mjs lines 241-248): accumulate
stderr text, then — when configured — invoke `parseProgress` and overwrite
the ratio with its result unless it is null/undefined (`Option.none`), then
— when configured — invoke `onOutput` with the chunk and the `bar` view.
Returns the new state and the callback invocations in execution order. -/
def processData (parseProgress : Option (String → Option ℚ))
    (onOutput : Option (String → List BarCmd)) (total : Option ℤ)
    (text : String) (isStderr : Bool) (s : TrackedState) :
    TrackedState × List CallEv :=
  let s1 := if isStderr then { s with allStderr := s.allStderr ++ text } else s
  let s2 := match parseProgress with
    | some pp =>
      match pp text with
      | some v => { s1 with pct := v }
      | none => s1
    | none => s1
  let s3 := match onOutput with
    | some ob => applyCmds total (ob text) s2
    | none => s2
  (s3,
   (match parseProgress with
    | some _ => [CallEv.parserCall text]
    | none => []) ++
   (match onOutput with
    | some _ => [CallEv.observerCall text]
    | none => []))

/-- Chunks processed in arrival order (the `data` listeners on stdout and
stderr, lines 250-251, feed `processData` one chunk at a time); `true`
marks a stderr chunk. -/
def processChunks (parseProgress : Option (String → Option ℚ))
    (onOutput : Option (String → List BarCmd)) (total : Option ℤ) :
    List (String × Bool) → TrackedState → TrackedState × List CallEv
  | [], s => (s, [])
  | c :: rest, s =>
    let r := processData parseProgress onOutput total c.1 c.2 s
    let r2 := processChunks parseProgress onOutput total rest r.1
    (r2.1, r.2 ++ r2.2)

/-- A terminal write begins with the erase-line + carriage-return sequence
`\r\x1b[2K` (it overwrites the current terminal line). -/
def overwritesLine (s : String) : Bool :=
  "\r\x1b[2K".data.isPrefixOf s.data

/-- A terminal write ends with a newline. -/
def endsWithNewline (s : String) : Bool :=
  "\n".data.isSuffixOf s.data

/-- `const adjustedMs = estimatedMs * (1 + estimateBuffer)`
(src/index.mjs line 155). -/
def adjustedMs (estimatedMs estimateBuffer : ℝ) : ℝ :=
  estimatedMs * (1 + estimateBuffer)

/-- The easing sample of `runEstimated` (line 161):
`0.9 * (1 - Math.exp(-2.5 * (elapsed / adjustedMs)))`. -/
noncomputable def easedPct (estimatedMs estimateBuffer elapsed : ℝ) : ℝ :=
  0.9 * (1 - Real.exp (-2.5 * (elapsed / adjustedMs estimatedMs estimateBuffer)))

/-! ## Theorems -/

/-- C3: for every ratio `r` (also outside `[0,1]`), `renderBar` computes
`filledCount = round(barWidth * clamp(r))` with `clamp(r) = max 0 (min 1 r)`,
and `0 ≤ filledCount ≤ barWidth` and `filledCount + emptyCount = barWidth`. -/
theorem renderBar_counts (w : ℕ) (r : ℚ) :
    0 ≤ filledCount w r ∧ filledCount w r ≤ (w : ℤ) ∧
    filledCount w r + emptyCount w r = (w : ℤ) := by
  have h0 : (0 : ℚ) ≤ clampRatio r := le_max_left _ _
  have h1 : clampRatio r ≤ 1 := max_le (by norm_num) (min_le_left _ _)
  have hw : (0 : ℚ) ≤ (w : ℚ) := by positivity
  refine ⟨?_, ?_, by rw [emptyCount]; ring⟩
  · rw [filledCount, round_eq]
    exact Int.le_floor.mpr (by push_cast; nlinarith)
  · rw [filledCount, round_eq]
    have hle : (w : ℚ) * clampRatio r + 1 / 2 ≤ (w : ℚ) + 1 / 2 := by nlinarith
    have h2 : ⌊(w : ℚ) + 1 / 2⌋ = (w : ℤ) := by
      refine Int.floor_eq_iff.mpr ⟨by push_cast; linarith, by push_cast; linarith⟩
    calc ⌊(w : ℚ) * clampRatio r + 1 / 2⌋ ≤ ⌊(w : ℚ) + 1 / 2⌋ :=
          Int.floor_le_floor hle
      _ = (w : ℤ) := h2

/-- C5: `increment()` always increases `completed` by exactly 1; when `total`
is a positive integer it sets the ratio to `completed / total` (with the
post-increment counter); when `total` is absent the ratio is unchanged. -/
theorem increment_spec (total : Option ℤ) (s : TrackedState) :
    (increment total s).completed = s.completed + 1 ∧
    (∀ t : ℤ, total = some t → 0 < t →
      (increment total s).pct = ((s.completed : ℚ) + 1) / (t : ℚ)) ∧
    (total = none → (increment total s).pct = s.pct) := by
  refine ⟨?_, ?_, ?_⟩
  · cases total with
    | none => simp [increment]
    | some t => by_cases ht : t = 0 <;> simp [increment, ht]
  · rintro t rfl ht
    have hne : t ≠ 0 := ht.ne'
    simp [increment, hne]
  · rintro rfl
    simp [increment]

/-- Witness for C5 at `total = 4`, `completed = 2`. -/
theorem increment_spec_witness :
    (increment (some 4) ⟨0, 2, ""⟩).completed = 2 + 1 ∧
    (increment (some 4) ⟨0, 2, ""⟩).pct = ((2 : ℚ) + 1) / (4 : ℚ) :=
  ⟨(increment_spec (some 4) ⟨0, 2, ""⟩).1,
   (increment_spec (some 4) ⟨0, 2, ""⟩).2.1 4 rfl (by norm_num)⟩

/-- C10: `stop` is idempotent — cancelling a handle's already-cancelled
render timer is a no-op, leaving the timer set as after a single `stop`
(and the handle's timer is indeed gone after one `stop`). -/
theorem stop_idempotent (id : ℕ) (timers : List ℕ) :
    stop id (stop id timers) = stop id timers ∧ id ∉ stop id timers := by
  constructor
  · simp [stop, clearInterval, List.filter_filter]
  · simp [stop, clearInterval, List.mem_filter]

/-- C4: with `parseProgress` configured (and no `onOutput` observer), a
chunk on which the parser returns `some v` overwrites the handle's ratio
with `v`; a chunk on which it returns `none` (null/undefined) leaves the
ratio unchanged; in particular a parse of `0.5` followed by a null parse
leaves the ratio at `0.5`. -/
theorem parseProgress_ratio_update (pp : String → Option ℚ)
    (total : Option ℤ) (s : TrackedState) :
    (∀ t b v, pp t = some v →
      (processData (some pp) none total t b s).1.pct = v) ∧
    (∀ t b, pp t = none →
      (processData (some pp) none total t b s).1.pct = s.pct) ∧
    (∀ t₁ b₁ t₂ b₂, pp t₁ = some (1 / 2) → pp t₂ = none →
      (processData (some pp) none total t₂ b₂
        (processData (some pp) none total t₁ b₁ s).1).1.pct = 1 / 2) := by
  refine ⟨?_, ?_, ?_⟩
  · intro t b v h
    cases b <;> simp [processData, h]
  · intro t b h
    cases b <;> simp [processData, h]
  · intro t₁ b₁ t₂ b₂ h1 h2
    cases b₁ <;> cases b₂ <;> simp [processData, h1, h2]

/-- Witness for C4: a concrete parser mapping `"a"` to `0.5` and everything
else to null, fed chunks `"a"` then `"b"`. -/
theorem parseProgress_ratio_update_witness :
    (processData (some fun t => if t = "a" then some ((1 : ℚ) / 2) else none)
      none none "b" false
      (processData (some fun t => if t = "a" then some ((1 : ℚ) / 2) else none)
        none none "a" false ⟨0, 0, ""⟩).1).1.pct = 1 / 2 :=
  (parseProgress_ratio_update _ none ⟨0, 0, ""⟩).2.2 "a" false "b" false
    (by simp) (by simp)

/-- C9: with both callbacks configured, handling one chunk invokes the
parser first and then the observer, each exactly once, whatever the
parser returns and whatever the observer does; over a list of chunks
(stdout and stderr alike) the invocations happen in arrival order. -/
theorem chunk_callbacks_order (p : String → Option ℚ)
    (o : String → List BarCmd) (total : Option ℤ) :
    (∀ t b s, (processData (some p) (some o) total t b s).2 =
      [CallEv.parserCall t, CallEv.observerCall t]) ∧
    (∀ chunks s, (processChunks (some p) (some o) total chunks s).2 =
      chunks.flatMap fun c =>
        [CallEv.parserCall c.1, CallEv.observerCall c.1]) := by
  have h1 : ∀ t b s, (processData (some p) (some o) total t b s).2 =
      [CallEv.parserCall t, CallEv.observerCall t] := by
    intro t b s
    simp [processData]
  refine ⟨h1, ?_⟩
  intro chunks
  induction chunks with
  | nil => intro s; simp [processChunks]
  | cons c rest ih =>
    intro s
    simp [processChunks, h1, ih]

/-- C1: a run's close handler resolves exactly when the exit code is 0 or a
supplied `tolerateFailure()` returns true at exit time; otherwise it prints
the failure line, then the accumulated stderr block when its trimmed text is
non-empty, and rejects with the exit code (`CommandFailed(code)`), with no
further action (no retry). -/
theorem closeHandler_resolves_iff (l : String) (dl : Option DoneLabel)
    (tf : Option (Unit → Bool)) (acc : String) (c : ℚ) (code : ℤ) :
    ((closeHandler l dl tf acc c code).2 = none ↔
      code = 0 ∨ tolerateOk tf = true) ∧
    (¬(code = 0 ∨ tolerateOk tf = true) →
      (closeHandler l dl tf acc c code).2 = some code ∧
      (closeHandler l dl tf acc c code).1 =
        Act.stopTimer :: Act.printFail l ::
          (if acc.trim = "" then [] else [Act.printStderr acc.trim])) := by
  by_cases h : code = 0 ∨ tolerateOk tf = true
  · simp [closeHandler, h]
  · simp [closeHandler, h]

/-- Witness for C1: exit code 2, no `tolerateFailure`, stderr `" boom "`:
the run rejects with 2 and prints the failure line then the trimmed block. -/
theorem closeHandler_resolves_iff_witness :
    (closeHandler "l" none none " boom " 0 2).2 = some 2 ∧
    (closeHandler "l" none none " boom " 0 2).1 =
      Act.stopTimer :: Act.printFail "l" ::
        (if (" boom " : String).trim = "" then []
         else [Act.printStderr (" boom " : String).trim]) :=
  (closeHandler_resolves_iff "l" none none " boom " 0 2).2 (by decide)

lemma snapTo100_unfold (l : String) (c : ℚ) (fl : Option String) :
    snapTo100 l c fl =
      [Act.paintFrame (snapStep c 1), Act.paintFrame (snapStep c 2),
       Act.paintFrame (snapStep c 3), Act.paintFrame (snapStep c 4),
       Act.paintFrame (snapStep c 5), Act.paintFrame (snapStep c 6),
       Act.paintFrame (snapStep c 7), Act.paintFrame (snapStep c 8),
       Act.printSuccess (finalOrLabel fl l)] := by
  rw [snapTo100, snapRun, dif_neg (by norm_num), snapRun,
    dif_neg (by norm_num), snapRun, dif_neg (by norm_num), snapRun,
    dif_neg (by norm_num), snapRun, dif_neg (by norm_num), snapRun,
    dif_neg (by norm_num), snapRun, dif_neg (by norm_num), snapRun,
    dif_pos (by norm_num)]

/-- C6: on a successful close, after the render timer is stopped the snap
paints exactly 8 frames, the frame `f` ratio being `c + (1 - c) * (f / 8)`
for the ratio-at-stop `c`, the 8th frame painting exactly 1 for every `c`,
and then the success line is printed with the done label resolved (a
zero-argument function is invoked; an absent done label falls back to the
run's label). -/
theorem snap_success_frames (l : String) (dl : Option DoneLabel)
    (tf : Option (Unit → Bool)) (acc : String) (c : ℚ) (code : ℤ)
    (h : code = 0 ∨ tolerateOk tf = true) :
    (closeHandler l dl tf acc c code).1 =
      [Act.stopTimer,
       Act.paintFrame (c + (1 - c) * (1 / 8)),
       Act.paintFrame (c + (1 - c) * (2 / 8)),
       Act.paintFrame (c + (1 - c) * (3 / 8)),
       Act.paintFrame (c + (1 - c) * (4 / 8)),
       Act.paintFrame (c + (1 - c) * (5 / 8)),
       Act.paintFrame (c + (1 - c) * (6 / 8)),
       Act.paintFrame (c + (1 - c) * (7 / 8)),
       Act.paintFrame 1,
       Act.printSuccess (finalOrLabel (resolveDone dl) l)] ∧
    (closeHandler l dl tf acc c code).2 = none ∧
    snapStep c 8 = 1 ∧
    finalOrLabel (resolveDone none) l = l ∧
    (∀ g : Unit → String, g () ≠ "" →
      finalOrLabel (resolveDone (some (DoneLabel.fn g))) l = g ()) := by
  refine ⟨?_, ?_, ?_, rfl, ?_⟩
  · rw [closeHandler, if_pos h, snapTo100_unfold]
    norm_num [snapStep]
  · rw [closeHandler, if_pos h]
  · norm_num [snapStep]
  · intro g hg
    simp [finalOrLabel, resolveDone, hg]

/-- Witness for C6: ratio-at-stop 1 (zero-length delta), exit code 0. -/
theorem snap_success_frames_witness :
    (closeHandler "build" none none "" 1 0).2 = none ∧ snapStep 1 8 = 1 :=
  ⟨(snap_success_frames "build" none none "" 1 0 (Or.inl rfl)).2.1,
   (snap_success_frames "build" none none "" 1 0 (Or.inl rfl)).2.2.1⟩

lemma paintCalls_spec (cfg : Config) (calls : List (String × ℚ)) :
    ∀ i, (paintCalls cfg i calls).1 = i + calls.length ∧
      ∀ k, k < calls.length →
        ((paintCalls cfg i calls).2.get? k).map Frame.glyph =
          some (spinnerGlyph cfg.spinnerFrames (i + k)) := by
  induction calls with
  | nil => intro i; simp [paintCalls]
  | cons c rest ih =>
    intro i
    constructor
    · simp [paintCalls, paint, (ih (i + 1)).1]
      omega
    · intro k hk
      cases k with
      | zero => simp [paintCalls, paint]
      | succ k =>
        have h2 := (ih (i + 1)).2 k (by simpa using hk)
        rw [show i + (k + 1) = i + 1 + k by omega]
        simpa [paintCalls, paint] using h2

/-- C7: every `paint` call advances the engine's spinner index by exactly 1
and displays `spinnerFrames[index % frameCount]`; the index threads through
a sequence of paints regardless of which label/ratio (which bar or run)
each call carries, so sequential paints continue one spinner cycle. -/
theorem paint_advances_spinner (cfg : Config) (i : ℕ) (label : String)
    (pct : ℚ) (calls : List (String × ℚ)) :
    (paint cfg i label pct).1 = i + 1 ∧
    (paint cfg i label pct).2.glyph =
      cfg.spinnerFrames.get? (i % cfg.spinnerFrames.length) ∧
    (paintCalls cfg i calls).1 = i + calls.length ∧
    (∀ k, k < calls.length →
      ((paintCalls cfg i calls).2.get? k).map Frame.glyph =
        some (cfg.spinnerFrames.get? ((i + k) % cfg.spinnerFrames.length))) := by
  refine ⟨rfl, rfl, (paintCalls_spec cfg calls i).1, ?_⟩
  intro k hk
  simpa [spinnerGlyph] using (paintCalls_spec cfg calls i).2 k hk

/-- Witness for C7: two paints through one engine, triggered with different
labels and ratios, starting at index 11. -/
theorem paint_advances_spinner_witness :
    ((paintCalls defaultConfig 11 [("a", 0), ("b", 1 / 2)]).2.get? 1).map
      Frame.glyph =
      some (defaultConfig.spinnerFrames.get?
        ((11 + 1) % defaultConfig.spinnerFrames.length)) :=
  (paint_advances_spinner defaultConfig 11 "a" 0
    [("a", 0), ("b", 1 / 2)]).2.2.2 1 (by norm_num)

/-- C2: with a positive adjusted duration, the estimated-mode easing ratio
`0.9 * (1 - e^(-2.5 * t / adjustedMs))` is strictly increasing in elapsed
time, strictly below 0.9 at every sample, and equals
`0.9 * (1 - e^(-2.5))` at `t = adjustedMs`. -/
theorem easedPct_monotone_bounded (e b t₁ t₂ : ℝ)
    (ha : 0 < adjustedMs e b) (ht : t₁ < t₂) :
    easedPct e b t₁ < easedPct e b t₂ ∧
    easedPct e b t₁ < 0.9 ∧
    easedPct e b (adjustedMs e b) = 0.9 * (1 - Real.exp (-2.5)) := by
  refine ⟨?_, ?_, ?_⟩
  · have h1 : t₁ / adjustedMs e b < t₂ / adjustedMs e b := by gcongr
    have h2 : (-2.5 : ℝ) * (t₂ / adjustedMs e b) <
        -2.5 * (t₁ / adjustedMs e b) := by nlinarith
    have h3 : Real.exp (-2.5 * (t₂ / adjustedMs e b)) <
        Real.exp (-2.5 * (t₁ / adjustedMs e b)) := Real.exp_lt_exp.mpr h2
    rw [easedPct, easedPct]
    nlinarith
  · have hp : 0 < Real.exp (-2.5 * (t₁ / adjustedMs e b)) := Real.exp_pos _
    rw [easedPct]
    nlinarith
  · rw [easedPct, div_self ha.ne']
    norm_num

/-- Witness for C2 at `estimatedMs = 1000`, `estimateBuffer = 0.15`,
sampling times 0 and 200. -/
theorem easedPct_monotone_bounded_witness :
    easedPct 1000 (15 / 100) 0 < easedPct 1000 (15 / 100) 200 ∧
    easedPct 1000 (15 / 100) 0 < 0.9 :=
  ⟨(easedPct_monotone_bounded 1000 (15 / 100) 0 200
      (by norm_num [adjustedMs]) (by norm_num)).1,
   (easedPct_monotone_bounded 1000 (15 / 100) 0 200
      (by norm_num [adjustedMs]) (by norm_num)).2.1⟩

/-- C8 counterexample: `succeed` (and likewise `fail`) begins with the
erase-line + carriage-return sequence `\r\x1b[2K`, i.e. it does overwrite
the current terminal line, contrary to the claim that none of the
terminal-state prints erases an existing frame. -/
theorem terminal_overwrite_cex :
    overwritesLine (succeed defaultConfig "done") = true ∧
    overwritesLine (fail defaultConfig "done") = true := by decide

lemma mem_data_repeatStr {c : Char} {s : String} :
    ∀ {n : ℕ}, c ∈ (repeatStr s n).data → c ∈ s.data := by
  intro n
  induction n with
  | zero =>
    intro h
    simp [repeatStr] at h
  | succ n ih =>
    intro h
    rw [repeatStr, String.data_append] at h
    rcases List.mem_append.mp h with h | h
    · exact h
    · exact ih h

lemma not_overwrites (s : String) (h : ('\r' : Char) ∉ s.data) :
    overwritesLine s = false := by
  rw [overwritesLine, Bool.eq_false_iff]
  intro hb
  rw [List.isPrefixOf_iff_prefix] at hb
  exact h (List.IsPrefix.mem (by decide) hb)

lemma endsWithNewline_append (t : String) :
    endsWithNewline (t ++ "\n") = true := by
  rw [endsWithNewline, List.isSuffixOf_iff_suffix, String.data_append]
  exact List.suffix_append _ _

/-- C8 amended: `info` and `warn` are one-shot appends of a glyph plus the
label ending in a newline, with no carriage-return/erase of the current
line; `succeed` and `fail` also print glyph + label + newline but first
erase the current terminal line (overwriting the live frame); none of the
four participates in the render timer loop. -/
theorem terminal_prints_amended (cfg : Config) (label : String)
    (hl : ('\r' : Char) ∉ label.data) :
    overwritesLine (succeed cfg label) = true ∧
    overwritesLine (fail cfg label) = true ∧
    ('\r' : Char) ∉ (info cfg label).data ∧
    ('\r' : Char) ∉ (warn cfg label).data ∧
    overwritesLine (info cfg label) = false ∧
    overwritesLine (warn cfg label) = false ∧
    endsWithNewline (succeed cfg label) = true ∧
    endsWithNewline (fail cfg label) = true ∧
    endsWithNewline (info cfg label) = true ∧
    endsWithNewline (warn cfg label) = true := by
  have hpad : ('\r' : Char) ∉ (pad cfg).data := fun h =>
    absurd (mem_data_repeatStr h) (by decide)
  have hdim : ('\r' : Char) ∉ "\x1b[2m".data := by decide
  have hdim2 : ('\r' : Char) ∉ "\x1b[22m".data := by decide
  have hyel : ('\r' : Char) ∉ "\x1b[33m".data := by decide
  have hyel2 : ('\r' : Char) ∉ "\x1b[39m".data := by decide
  have hcirc : ('\r' : Char) ∉ "○".data := by decide
  have hwarnG : ('\r' : Char) ∉ "⚠".data := by decide
  have hsp : ('\r' : Char) ∉ " ".data := by decide
  have hnl : ('\r' : Char) ∉ "\n".data := by decide
  have hinfo : ('\r' : Char) ∉ (info cfg label).data := by
    simp [info, chalkDim, String.data_append, List.mem_append, hpad, hl,
      hdim, hdim2, hcirc, hsp, hnl]
  have hwarn : ('\r' : Char) ∉ (warn cfg label).data := by
    simp [warn, chalkYellow, String.data_append, List.mem_append, hpad, hl,
      hyel, hyel2, hwarnG, hsp, hnl]
  refine ⟨?_, ?_, hinfo, hwarn, not_overwrites _ hinfo, not_overwrites _ hwarn,
    ?_, ?_, ?_, ?_⟩
  · rw [overwritesLine, succeed, List.isPrefixOf_iff_prefix]
    simp only [String.data_append, List.append_assoc]
    exact List.prefix_append _ _
  · rw [overwritesLine, fail, List.isPrefixOf_iff_prefix]
    simp only [String.data_append, List.append_assoc]
    exact List.prefix_append _ _
  · rw [succeed]; exact endsWithNewline_append _
  · rw [fail]; exact endsWithNewline_append _
  · rw [info]; exact endsWithNewline_append _
  · rw [warn]; exact endsWithNewline_append _

/-- Witness for C8 (amended) at the default configuration, label `"done"`. -/
theorem terminal_prints_amended_witness :
    overwritesLine (succeed defaultConfig "done") = true ∧
    overwritesLine (info defaultConfig "done") = false ∧
    endsWithNewline (info defaultConfig "done") = true :=
  ⟨(terminal_prints_amended defaultConfig "done" (by decide)).1,
   (terminal_prints_amended defaultConfig "done" (by decide)).2.2.2.2.1,
   (terminal_prints_amended defaultConfig "done"
      (by decide)).2.2.2.2.2.2.2.2.1⟩

end CliProgress
